import Mathlib

/-!
Verification development for the bitget-earn-demo repository.

The repository ships a demonstration notebook
(src/bitget-earn-demo/bitget_earn_trading_demo.ipynb) that sequences calls
into the external bitget_earn_trading library.  The library itself (the
EarnOrchestrator, RateLimiter, SettlementWaiter and PrecisionNormalizer of
the specification) is not part of the repository, so those components are
modelled here from the specification text; the notebook cells (credential
display, balance display, and the try/except demo cells) are embedded from
the notebook source itself.

Amounts and prices are modelled as rational numbers; dictionaries returned
by the client are association lists from strings to strings.
-/

namespace BitgetEarn

/-! ## PrecisionNormalizer -/

/-- Modelled from the spec: an Instrument carries symbol, base/quote assets,
price tick size, quantity lot size and minimum notional (spec section 3).
The bitget_earn_trading library that would hold this type is not in src/. -/
structure Instrument where
  symbol : String
  baseAsset : String
  quoteAsset : String
  tickSize : ℚ
  lotSize : ℚ
  minNotional : ℚ
deriving DecidableEq, Repr

/-- Modelled from the spec: rounding a raw value down to the largest exact
multiple of the instrument grid step (lot size for quantities, tick size for
prices), spec section 4.2.  The library code is not in src/. -/
def normalizeToGrid (step : ℚ) (x : ℚ) : ℚ :=
  ⌊x / step⌋ * step

/-- Modelled from the spec: the failure mode of PrecisionNormalizer
(spec section 4.2). -/
inductive NormError where
  | belowMinimumNotional : NormError
deriving DecidableEq, Repr

/-- Modelled from the spec: PrecisionNormalizer on a quantity.  Given an
Instrument, a raw quantity and a price, it returns the largest multiple of
the lot size that is at most the raw quantity, failing with
belowMinimumNotional when that normalized quantity times the price is below
the instrument minimum notional (spec section 4.2).  The library code is
not in src/. -/
def normalizeQuantity (inst : Instrument) (rawQty : ℚ) (price : ℚ) :
    Except NormError ℚ :=
  if normalizeToGrid inst.lotSize rawQty * price < inst.minNotional then
    Except.error NormError.belowMinimumNotional
  else
    Except.ok (normalizeToGrid inst.lotSize rawQty)

theorem normalizeToGrid_is_multiple (step x : ℚ) :
    ∃ k : ℤ, normalizeToGrid step x = (k : ℚ) * step :=
  ⟨⌊x / step⌋, rfl⟩

theorem normalizeToGrid_le (step x : ℚ) (hstep : 0 < step) :
    normalizeToGrid step x ≤ x := by
  have h1 : (⌊x / step⌋ : ℚ) ≤ x / step := Int.floor_le _
  have h2 : (⌊x / step⌋ : ℚ) * step ≤ (x / step) * step :=
    mul_le_mul_of_nonneg_right h1 (le_of_lt hstep)
  have h3 : (x / step) * step = x := div_mul_cancel₀ x (ne_of_gt hstep)
  calc normalizeToGrid step x = (⌊x / step⌋ : ℚ) * step := rfl
    _ ≤ (x / step) * step := h2
    _ = x := h3

theorem normalizeToGrid_greatest (step x : ℚ) (hstep : 0 < step)
    (k : ℤ) (hk : (k : ℚ) * step ≤ x) :
    (k : ℚ) * step ≤ normalizeToGrid step x := by
  have h1 : (k : ℚ) ≤ x / step := (le_div_iff₀ hstep).mpr hk
  have h2 : k ≤ ⌊x / step⌋ := Int.le_floor.mpr h1
  have h3 : (k : ℚ) ≤ (⌊x / step⌋ : ℚ) := by exact_mod_cast h2
  exact mul_le_mul_of_nonneg_right h3 (le_of_lt hstep)

theorem normalizeToGrid_fixed (step : ℚ) (hstep : step ≠ 0) (k : ℤ) :
    normalizeToGrid step ((k : ℚ) * step) = (k : ℚ) * step := by
  unfold normalizeToGrid
  rw [mul_div_cancel_right₀ _ hstep, Int.floor_intCast]

theorem normalizeToGrid_idem (step x : ℚ) (hstep : step ≠ 0) :
    normalizeToGrid step (normalizeToGrid step x) = normalizeToGrid step x :=
  normalizeToGrid_fixed step hstep ⌊x / step⌋

/-- A concrete instrument used to witness the normalizer theorems. -/
def btcInstrument : Instrument where
  symbol := "BTCUSDT"
  baseAsset := "BTC"
  quoteAsset := "USDT"
  tickSize := 1 / 100
  lotSize := 1 / 1000
  minNotional := 5

/-- C4: for every Instrument with a positive lot size and every raw
quantity/price, the PrecisionNormalizer returns the largest value at most the
input that is an exact multiple of the lot size, and it fails with
belowMinimumNotional exactly when the normalized value times the price is
below the instrument minimum notional.  (The normalizer is a pure Lean
function, hence deterministic and free of I/O by construction.) -/
theorem claim_C4_precision_normalizer (inst : Instrument) (rawQty price : ℚ)
    (hlot : 0 < inst.lotSize) :
    (∀ q : ℚ, normalizeQuantity inst rawQty price = Except.ok q →
      (∃ k : ℤ, q = (k : ℚ) * inst.lotSize) ∧ q ≤ rawQty ∧
      ∀ m : ℚ, (∃ k : ℤ, m = (k : ℚ) * inst.lotSize) → m ≤ rawQty → m ≤ q) ∧
    (normalizeQuantity inst rawQty price
        = Except.error NormError.belowMinimumNotional ↔
      normalizeToGrid inst.lotSize rawQty * price < inst.minNotional) := by
  constructor
  · intro q hq
    have hq2 : q = normalizeToGrid inst.lotSize rawQty := by
      unfold normalizeQuantity at hq
      by_cases h : normalizeToGrid inst.lotSize rawQty * price < inst.minNotional
      · simp [h] at hq
      · simp [h] at hq
        exact hq.symm
    subst hq2
    refine ⟨normalizeToGrid_is_multiple _ _, normalizeToGrid_le _ _ hlot, ?_⟩
    intro m hm hmle
    obtain ⟨k, rfl⟩ := hm
    exact normalizeToGrid_greatest _ _ hlot k hmle
  · unfold normalizeQuantity
    by_cases h : normalizeToGrid inst.lotSize rawQty * price < inst.minNotional
    · simp [h]
    · simp [h]

/-- Witness for C4 at a concrete instrument and input: lot size 1/1000,
raw quantity 1/2, price 10000. -/
theorem claim_C4_witness :
    0 < btcInstrument.lotSize ∧
    ((∀ q : ℚ, normalizeQuantity btcInstrument (1/2) 10000 = Except.ok q →
      (∃ k : ℤ, q = (k : ℚ) * btcInstrument.lotSize) ∧ q ≤ 1/2 ∧
      ∀ m : ℚ, (∃ k : ℤ, m = (k : ℚ) * btcInstrument.lotSize) → m ≤ 1/2 →
        m ≤ q) ∧
    (normalizeQuantity btcInstrument (1/2) 10000
        = Except.error NormError.belowMinimumNotional ↔
      normalizeToGrid btcInstrument.lotSize (1/2) * 10000
        < btcInstrument.minNotional)) :=
  ⟨by norm_num [btcInstrument],
   claim_C4_precision_normalizer btcInstrument (1/2) 10000
     (by norm_num [btcInstrument])⟩

/-- C8: for every instrument with a positive lot size, normalizing an already
normalized quantity returns it unchanged (idempotence), and the normalized
output is a multiple of the lot size and at most the input. -/
theorem claim_C8_normalizer_idempotent (inst : Instrument) (amount price : ℚ)
    (hlot : 0 < inst.lotSize) :
    (∀ q : ℚ, normalizeQuantity inst amount price = Except.ok q →
      normalizeQuantity inst q price = Except.ok q) ∧
    (∃ k : ℤ, normalizeToGrid inst.lotSize amount = (k : ℚ) * inst.lotSize) ∧
    normalizeToGrid inst.lotSize amount ≤ amount := by
  refine ⟨?_, normalizeToGrid_is_multiple _ _, normalizeToGrid_le _ _ hlot⟩
  intro q hq
  unfold normalizeQuantity at hq ⊢
  by_cases h : normalizeToGrid inst.lotSize amount * price < inst.minNotional
  · simp [h] at hq
  · simp [h] at hq
    subst hq
    rw [normalizeToGrid_idem _ _ (ne_of_gt hlot)]
    simp [h]

/-- Witness for C8 at a concrete instrument and input: lot size 1/1000,
amount 7/4, price 3. -/
theorem claim_C8_witness :
    0 < btcInstrument.lotSize ∧
    ((∀ q : ℚ, normalizeQuantity btcInstrument (7/4) 3 = Except.ok q →
      normalizeQuantity btcInstrument q 3 = Except.ok q) ∧
    (∃ k : ℤ, normalizeToGrid btcInstrument.lotSize (7/4)
        = (k : ℚ) * btcInstrument.lotSize) ∧
    normalizeToGrid btcInstrument.lotSize (7/4) ≤ 7/4) :=
  ⟨by norm_num [btcInstrument],
   claim_C8_normalizer_idempotent btcInstrument (7/4) 3
     (by norm_num [btcInstrument])⟩

/-! ## Workflow state machine -/

/-- Modelled from the spec: the terminal outcome of one WorkflowStep once it
settles (spec section 3).  The bitget_earn_trading library that would hold
the workflow engine is not in src/. -/
inductive StepOutcome where
  | success : StepOutcome
  | failure (reason : String) : StepOutcome
deriving DecidableEq, Repr

/-- Modelled from the spec: the per-Workflow states of spec section 4.4:
Pending, StepExecuting(i), StepSettling(i), Completed,
PartiallyCompleted(lastSuccessfulStep), Failed(reason). -/
inductive WorkflowState where
  | Pending : WorkflowState
  | StepExecuting (i : ℕ) : WorkflowState
  | StepSettling (i : ℕ) : WorkflowState
  | Completed : WorkflowState
  | PartiallyCompleted (lastSuccessfulStep : ℕ) : WorkflowState
  | Failed (reason : String) : WorkflowState
deriving DecidableEq, Repr

/-- Modelled from the spec: the frozen state after step i fails terminally.
If no step completed before it the workflow is Failed(reason); otherwise it
is PartiallyCompleted with the last successful step recorded
(spec sections 3 and 4.4). -/
def haltState (i : ℕ) (reason : String) : WorkflowState :=
  if i = 0 then WorkflowState.Failed reason
  else WorkflowState.PartiallyCompleted (i - 1)

/-- Modelled from the spec: the sequence of states a workflow passes through
while executing steps whose settled outcomes are given by the list, starting
at step index start.  Each step contributes StepExecuting(i) then
StepSettling(i); the workflow advances past them only on terminal success
(spec section 4.4). -/
def traceFrom : List StepOutcome → ℕ → List WorkflowState
  | [], _ => [WorkflowState.Completed]
  | StepOutcome.success :: rest, i =>
      WorkflowState.StepExecuting i :: WorkflowState.StepSettling i ::
        traceFrom rest (i + 1)
  | StepOutcome.failure r :: _, i =>
      [WorkflowState.StepExecuting i, WorkflowState.StepSettling i,
        haltState i r]

/-- Modelled from the spec: the full state trace of a workflow, starting from
Pending (spec section 4.4). -/
def workflowTrace (outcomes : List StepOutcome) : List WorkflowState :=
  WorkflowState.Pending :: traceFrom outcomes 0

/-- Modelled from the spec: the final state a workflow freezes in. -/
def finalFrom : List StepOutcome → ℕ → WorkflowState
  | [], _ => WorkflowState.Completed
  | StepOutcome.success :: rest, i => finalFrom rest (i + 1)
  | StepOutcome.failure r :: _, i => haltState i r

/-- Modelled from the spec: the indices of the steps that completed
successfully before the first failure, the record the workflow reports to
the caller (spec sections 3, 7 and 9). -/
def completedFrom : List StepOutcome → ℕ → List ℕ
  | [], _ => []
  | StepOutcome.success :: rest, i => i :: completedFrom rest (i + 1)
  | StepOutcome.failure _ :: _, _ => []

/-- Modelled from the spec: running a workflow yields its frozen final state
together with the report of which steps completed. -/
def runWorkflow (outcomes : List StepOutcome) : WorkflowState × List ℕ :=
  (finalFrom outcomes 0, completedFrom outcomes 0)

theorem haltState_ne_executing (i j : ℕ) (r : String) :
    haltState i r ≠ WorkflowState.StepExecuting j := by
  unfold haltState
  split <;> simp

theorem executing_mem_traceFrom (outcomes : List StepOutcome) :
    ∀ (start j : ℕ), WorkflowState.StepExecuting j ∈ traceFrom outcomes start →
      start ≤ j ∧
        ∀ m, m < j - start → outcomes[m]? = some StepOutcome.success := by
  induction outcomes with
  | nil =>
    intro start j h
    simp [traceFrom] at h
  | cons o rest ih =>
    intro start j h
    cases o with
    | success =>
      simp only [traceFrom, List.mem_cons] at h
      rcases h with h1 | h1 | h1
      · have hj : j = start := by injection h1
        subst hj
        refine ⟨le_refl _, ?_⟩
        intro m hm
        exact absurd hm (by omega)
      · exact absurd h1 (by simp)
      · obtain ⟨hle, hall⟩ := ih (start + 1) j h1
        refine ⟨by omega, ?_⟩
        intro m hm
        cases m with
        | zero => simp
        | succ m2 =>
          have hm2 : m2 < j - (start + 1) := by omega
          have := hall m2 hm2
          simpa using this
    | failure r =>
      simp only [traceFrom, List.mem_cons, List.not_mem_nil] at h
      rcases h with h1 | h1 | h1 | h1
      · have hj : j = start := by injection h1
        subst hj
        refine ⟨le_refl _, ?_⟩
        intro m hm
        exact absurd hm (by omega)
      · exact absurd h1 (by simp)
      · exact absurd h1.symm (haltState_ne_executing _ _ _)
      · exact absurd h1 (by simp)

theorem finalFrom_first_failure :
    ∀ (outcomes : List StepOutcome) (start i : ℕ) (r : String),
      outcomes[i]? = some (StepOutcome.failure r) →
      (∀ m, m < i → outcomes[m]? = some StepOutcome.success) →
      finalFrom outcomes start = haltState (start + i) r := by
  intro outcomes
  induction outcomes with
  | nil =>
    intro start i r hf _
    simp at hf
  | cons o rest ih =>
    intro start i r hf hs
    cases i with
    | zero =>
      simp at hf
      subst hf
      simp [finalFrom]
    | succ i2 =>
      have h0 := hs 0 (Nat.succ_pos _)
      simp at h0
      subst h0
      simp only [finalFrom]
      have hf2 : rest[i2]? = some (StepOutcome.failure r) := by simpa using hf
      have hs2 : ∀ m, m < i2 → rest[m]? = some StepOutcome.success := by
        intro m hm
        have := hs (m + 1) (by omega)
        simpa using this
      rw [ih (start + 1) i2 r hf2 hs2]
      congr 1
      omega

theorem completedFrom_first_failure :
    ∀ (outcomes : List StepOutcome) (start i : ℕ) (r : String),
      outcomes[i]? = some (StepOutcome.failure r) →
      (∀ m, m < i → outcomes[m]? = some StepOutcome.success) →
      completedFrom outcomes start = List.range' start i := by
  intro outcomes
  induction outcomes with
  | nil =>
    intro start i r hf _
    simp at hf
  | cons o rest ih =>
    intro start i r hf hs
    cases i with
    | zero =>
      simp at hf
      subst hf
      simp [completedFrom]
    | succ i2 =>
      have h0 := hs 0 (Nat.succ_pos _)
      simp at h0
      subst h0
      simp only [completedFrom]
      have hf2 : rest[i2]? = some (StepOutcome.failure r) := by simpa using hf
      have hs2 : ∀ m, m < i2 → rest[m]? = some StepOutcome.success := by
        intro m hm
        have := hs (m + 1) (by omega)
        simpa using this
      rw [ih (start + 1) i2 r hf2 hs2, List.range'_succ]

/-- C1: a workflow reaches StepExecuting(i+1) only when step i settled with
terminal success; and when step i is the first step to fail terminally, the
workflow freezes in Failed or PartiallyCompleted, reports exactly the steps
that completed (indices 0..i-1), and never executes any later step. -/
theorem claim_C1_workflow_advance_halt (outcomes : List StepOutcome) (i : ℕ) :
    (WorkflowState.StepExecuting (i + 1) ∈ workflowTrace outcomes →
      outcomes[i]? = some StepOutcome.success) ∧
    (∀ r : String, outcomes[i]? = some (StepOutcome.failure r) →
      (∀ m, m < i → outcomes[m]? = some StepOutcome.success) →
      ((runWorkflow outcomes).1 = WorkflowState.Failed r ∨
        (runWorkflow outcomes).1 = WorkflowState.PartiallyCompleted (i - 1)) ∧
      (runWorkflow outcomes).2 = List.range i ∧
      ∀ j, i < j →
        WorkflowState.StepExecuting j ∉ workflowTrace outcomes) := by
  constructor
  · intro h
    have h2 : WorkflowState.StepExecuting (i + 1) ∈ traceFrom outcomes 0 := by
      simpa [workflowTrace] using h
    obtain ⟨-, hall⟩ := executing_mem_traceFrom outcomes 0 (i + 1) h2
    have := hall i (by omega)
    simpa using this
  · intro r hf hs
    refine ⟨?_, ?_, ?_⟩
    · have hfin := finalFrom_first_failure outcomes 0 i r hf hs
      rw [show (runWorkflow outcomes).1 = finalFrom outcomes 0 from rfl, hfin]
      unfold haltState
      by_cases hi : i = 0
      · left
        simp [hi]
      · right
        simp [hi]
    · have hcomp := completedFrom_first_failure outcomes 0 i r hf hs
      rw [show (runWorkflow outcomes).2 = completedFrom outcomes 0 from rfl,
        hcomp, List.range_eq_range']
    · intro j hij hmem
      have h2 : WorkflowState.StepExecuting j ∈ traceFrom outcomes 0 := by
        simpa [workflowTrace] using hmem
      obtain ⟨-, hall⟩ := executing_mem_traceFrom outcomes 0 j h2
      have hcontra := hall i (by omega)
      rw [hf] at hcontra
      simp at hcontra

/-- Witness for C1 at the concrete outcome list [success, failure] and
step index 1. -/
theorem claim_C1_witness :
    (WorkflowState.StepExecuting 2 ∈
        workflowTrace [StepOutcome.success, StepOutcome.failure "boom"] →
      [StepOutcome.success, StepOutcome.failure "boom"][1]?
        = some StepOutcome.success) ∧
    (∀ r : String,
      [StepOutcome.success, StepOutcome.failure "boom"][1]?
          = some (StepOutcome.failure r) →
      (∀ m, m < 1 →
        [StepOutcome.success, StepOutcome.failure "boom"][m]?
          = some StepOutcome.success) →
      ((runWorkflow [StepOutcome.success, StepOutcome.failure "boom"]).1
          = WorkflowState.Failed r ∨
        (runWorkflow [StepOutcome.success, StepOutcome.failure "boom"]).1
          = WorkflowState.PartiallyCompleted 0) ∧
      (runWorkflow [StepOutcome.success, StepOutcome.failure "boom"]).2
          = List.range 1 ∧
      ∀ j, 1 < j →
        WorkflowState.StepExecuting j ∉
          workflowTrace [StepOutcome.success, StepOutcome.failure "boom"]) :=
  claim_C1_workflow_advance_halt
    [StepOutcome.success, StepOutcome.failure "boom"] 1

/-! ## SettlementWaiter -/

/-- Modelled from the spec: the status ExchangeGateway reports for an
asynchronous operation (spec sections 4.3 and 6); terminal states are
success (with the settled amount) and failure.  The bitget_earn_trading
library that would hold the waiter is not in src/. -/
inductive OpStatus where
  | pending : OpStatus
  | succeeded (settledAmount : ℚ) : OpStatus
  | failed (reason : String) : OpStatus
deriving DecidableEq, Repr

/-- Modelled from the spec: the result of SettlementWaiter.waitFor. -/
inductive WaitResult where
  | settled (amount : ℚ) : WaitResult
  | opFailed (reason : String) : WaitResult
  | settlementTimeout : WaitResult
deriving DecidableEq, Repr

/-- Modelled from the spec: the polling loop of SettlementWaiter.  The
function statusAt gives the gateway status observed at each poll; n is the
index of the next poll and the fuel is the number of polls that still fit
before the timeout elapses.  Returns the result together with the total
number of polls performed (spec section 4.3). -/
def waitForAux (statusAt : ℕ → OpStatus) : ℕ → ℕ → WaitResult × ℕ
  | n, 0 => (WaitResult.settlementTimeout, n)
  | n, fuel + 1 =>
    match statusAt n with
    | OpStatus.pending => waitForAux statusAt (n + 1) fuel
    | OpStatus.succeeded a => (WaitResult.settled a, n + 1)
    | OpStatus.failed r => (WaitResult.opFailed r, n + 1)

/-- Modelled from the spec: waitFor(operationId, pollInterval, timeout)
polls the status of the operation until it is terminal or the timeout
elapses; the number of polls that fit in the timeout window is
timeout / pollInterval (spec section 4.3). -/
def waitFor (statusAt : ℕ → OpStatus) (pollInterval timeoutMs : ℕ) :
    WaitResult × ℕ :=
  waitForAux statusAt 0 (timeoutMs / pollInterval)

theorem waitForAux_success (statusAt : ℕ → OpStatus) :
    ∀ (fuel n k : ℕ) (a : ℚ), k < fuel →
      statusAt (n + k) = OpStatus.succeeded a →
      (∀ m, m < k → statusAt (n + m) = OpStatus.pending) →
      waitForAux statusAt n fuel = (WaitResult.settled a, n + k + 1) := by
  intro fuel
  induction fuel with
  | zero =>
    intro n k a hk _ _
    exact absurd hk (by omega)
  | succ f ih =>
    intro n k a hk hA hpend
    cases k with
    | zero =>
      simp only [Nat.add_zero] at hA
      simp [waitForAux, hA]
    | succ k2 =>
      have h0 : statusAt n = OpStatus.pending := by
        have := hpend 0 (Nat.succ_pos _)
        simpa using this
      have hA2 : statusAt (n + 1 + k2) = OpStatus.succeeded a := by
        rw [show n + 1 + k2 = n + (k2 + 1) by omega]
        exact hA
      have hpend2 : ∀ m, m < k2 → statusAt (n + 1 + m) = OpStatus.pending := by
        intro m hm
        rw [show n + 1 + m = n + (m + 1) by omega]
        exact hpend (m + 1) (by omega)
      have := ih (n + 1) k2 a (by omega) hA2 hpend2
      simp only [waitForAux, h0]
      rw [this]
      congr 1
      omega

theorem waitForAux_timeout (statusAt : ℕ → OpStatus) :
    ∀ (fuel n : ℕ),
      (∀ m, m < fuel → statusAt (n + m) = OpStatus.pending) →
      waitForAux statusAt n fuel = (WaitResult.settlementTimeout, n + fuel) := by
  intro fuel
  induction fuel with
  | zero =>
    intro n _
    simp [waitForAux]
  | succ f ih =>
    intro n hpend
    have h0 : statusAt n = OpStatus.pending := by
      have := hpend 0 (Nat.succ_pos _)
      simpa using this
    have hpend2 : ∀ m, m < f → statusAt (n + 1 + m) = OpStatus.pending := by
      intro m hm
      rw [show n + 1 + m = n + (m + 1) by omega]
      exact hpend (m + 1) (by omega)
    simp only [waitForAux, h0]
    rw [ih (n + 1) hpend2]
    congr 1
    omega

/-- C5: if the operation status becomes terminal success at poll n, before
the timeout window of timeout/pollInterval polls elapses, waitFor returns
success with the settled amount (after n+1 polls); if every poll within the
window observes a non-terminal status, waitFor fails with SettlementTimeout
having performed exactly the polls in the window and no further polls. -/
theorem claim_C5_settlement_waiter (statusAt : ℕ → OpStatus)
    (pollInterval timeoutMs n : ℕ) (a : ℚ) :
    (n < timeoutMs / pollInterval →
      statusAt n = OpStatus.succeeded a →
      (∀ m, m < n → statusAt m = OpStatus.pending) →
      waitFor statusAt pollInterval timeoutMs = (WaitResult.settled a, n + 1)) ∧
    ((∀ m, m < timeoutMs / pollInterval → statusAt m = OpStatus.pending) →
      waitFor statusAt pollInterval timeoutMs
        = (WaitResult.settlementTimeout, timeoutMs / pollInterval)) := by
  constructor
  · intro hn hA hpend
    unfold waitFor
    have := waitForAux_success statusAt (timeoutMs / pollInterval) 0 n a hn
      (by simpa using hA) (by intro m hm; simpa using hpend m hm)
    simpa using this
  · intro hpend
    unfold waitFor
    have := waitForAux_timeout statusAt (timeoutMs / pollInterval) 0
      (by intro m hm; simpa using hpend m hm)
    simpa using this

/-- A concrete status stream that settles successfully at the third poll. -/
def demoStatusOk : ℕ → OpStatus :=
  fun n => if n < 2 then OpStatus.pending else OpStatus.succeeded 5

/-- A concrete status stream that never reaches a terminal state. -/
def demoStatusStuck : ℕ → OpStatus :=
  fun _ => OpStatus.pending

/-- Witness for C5: with a 100ms poll interval and a 1000ms timeout, a
status stream settling at the third poll yields success after 3 polls, and
a never-terminal stream yields SettlementTimeout after exactly 10 polls. -/
theorem claim_C5_witness :
    waitFor demoStatusOk 100 1000 = (WaitResult.settled 5, 3) ∧
    waitFor demoStatusStuck 100 1000 = (WaitResult.settlementTimeout, 10) :=
  ⟨(claim_C5_settlement_waiter demoStatusOk 100 1000 2 5).1 (by norm_num) rfl
      (by
        intro m hm
        interval_cases m <;> rfl),
   (claim_C5_settlement_waiter demoStatusStuck 100 1000 0 0).2
      (fun _ _ => rfl)⟩

/-! ## Retry policy for gateway calls -/

/-- Modelled from the spec: the two classes of gateway calls distinguished
by the error-handling design — idempotent reads (balance/status queries)
and mutating calls (submit order, redeem, transfer), spec section 7.  The
bitget_earn_trading library that would hold this logic is not in src/. -/
inductive CallKind where
  | idempotentRead : CallKind
  | mutating : CallKind
deriving DecidableEq, Repr

/-- Modelled from the spec: the response the gateway gives to one attempt of
a call: success, a transient network/5xx error, or a permanent error
(spec section 7). -/
inductive CallResp where
  | ok (value : ℚ) : CallResp
  | transientError : CallResp
  | permanentError (reason : String) : CallResp
deriving DecidableEq, Repr

/-- Modelled from the spec: how many automatic retries a call class is
allowed — a bounded count for idempotent reads, none for mutating calls
(spec section 7). -/
def retryBudget : CallKind → ℕ → ℕ
  | CallKind.idempotentRead, maxRetries => maxRetries
  | CallKind.mutating, _ => 0

/-- Modelled from the spec: the attempt loop.  responses gives the gateway
response to each attempt; n is the index of the next attempt and the budget
is the number of retries still allowed.  A retry is taken only after a
transient error.  Returns the call result together with the total number of
attempts performed (spec section 7). -/
def attemptsRun (responses : ℕ → CallResp) : ℕ → ℕ → Except String ℚ × ℕ
  | n, budget =>
    match responses n, budget with
    | CallResp.ok v, _ => (Except.ok v, n + 1)
    | CallResp.permanentError r, _ => (Except.error r, n + 1)
    | CallResp.transientError, 0 => (Except.error "TransientGatewayError", n + 1)
    | CallResp.transientError, b + 1 => attemptsRun responses (n + 1) b

/-- Modelled from the spec: executing one gateway call under the retry
policy of spec section 7. -/
def executeCall (kind : CallKind) (responses : ℕ → CallResp)
    (maxRetries : ℕ) : Except String ℚ × ℕ :=
  attemptsRun responses 0 (retryBudget kind maxRetries)

theorem attemptsRun_le (responses : ℕ → CallResp) :
    ∀ (budget n : ℕ), (attemptsRun responses n budget).2 ≤ n + budget + 1 := by
  intro budget
  induction budget with
  | zero =>
    intro n
    cases h : responses n <;> simp [attemptsRun, h]
  | succ b ih =>
    intro n
    cases h : responses n with
    | ok v => simp [attemptsRun, h]
    | transientError =>
      have := ih (n + 1)
      simp [attemptsRun, h]
      omega
    | permanentError r => simp [attemptsRun, h]

theorem attemptsRun_transient_before (responses : ℕ → CallResp) :
    ∀ (budget n j : ℕ), n ≤ j →
      j + 1 < (attemptsRun responses n budget).2 →
      responses j = CallResp.transientError := by
  intro budget
  induction budget with
  | zero =>
    intro n j hnj h
    cases hr : responses n <;> simp [attemptsRun, hr] at h <;> omega
  | succ b ih =>
    intro n j hnj h
    cases hr : responses n with
    | ok v =>
      simp [attemptsRun, hr] at h
      omega
    | permanentError r =>
      simp [attemptsRun, hr] at h
      omega
    | transientError =>
      simp only [attemptsRun, hr] at h
      rcases Nat.eq_or_lt_of_le hnj with rfl | hlt
      · exact hr
      · exact ih (n + 1) j (by omega) h

/-- C7: a mutating gateway call is executed exactly once regardless of the
responses and the retry bound, so no trace contains two automatic
submissions of the same mutating call; an idempotent read is attempted at
most maxRetries+1 times, and every attempt beyond the first happens only
because the preceding attempt returned a transient gateway error. -/
theorem claim_C7_retry_policy (responses : ℕ → CallResp) (maxRetries : ℕ) :
    (executeCall CallKind.mutating responses maxRetries).2 = 1 ∧
    (executeCall CallKind.idempotentRead responses maxRetries).2
        ≤ maxRetries + 1 ∧
    ∀ j, j + 1 < (executeCall CallKind.idempotentRead responses maxRetries).2 →
      responses j = CallResp.transientError := by
  refine ⟨?_, ?_, ?_⟩
  · unfold executeCall retryBudget
    cases h : responses 0 <;> simp [attemptsRun, h]
  · have h2 : (executeCall CallKind.idempotentRead responses maxRetries).2
        = (attemptsRun responses 0 maxRetries).2 := rfl
    have := attemptsRun_le responses maxRetries 0
    omega
  · intro j hj
    exact attemptsRun_transient_before responses maxRetries 0 j (by omega) hj

/-- A concrete response stream whose first attempt hits a transient error
and whose second attempt succeeds. -/
def demoResponses : ℕ → CallResp :=
  fun n => if n = 0 then CallResp.transientError else CallResp.ok 1

/-- Witness for C7 at the concrete response stream and retry bound 3. -/
theorem claim_C7_witness :
    (executeCall CallKind.mutating demoResponses 3).2 = 1 ∧
    (executeCall CallKind.idempotentRead demoResponses 3).2 ≤ 3 + 1 ∧
    ∀ j, j + 1 < (executeCall CallKind.idempotentRead demoResponses 3).2 →
      demoResponses j = CallResp.transientError :=
  claim_C7_retry_policy demoResponses 3

/-! ## RateLimiter -/

/-- Modelled from the spec: the token-bucket state of the RateLimiter — the
tokens currently available and the bucket clock, i.e. the time of the last
admission bookkeeping (spec section 4.1).  The bitget_earn_trading library
that would hold the limiter is not in src/. -/
structure BucketState where
  tokens : ℚ
  time : ℚ
deriving DecidableEq, Repr

/-- Modelled from the spec: one blocking acquire() against the token bucket.
The caller arrives at the given time; tokens refill at the configured rate
up to the capacity; if at least one token is available the caller is
admitted immediately, otherwise it is delayed exactly until the missing
fraction of a token has refilled.  Requests are never rejected: the result
is always an admission time (spec section 4.1). -/
def acquire (rate cap : ℚ) (s : BucketState) (arrival : ℚ) : ℚ × BucketState :=
  if 1 ≤ min cap (s.tokens + (max arrival s.time - s.time) * rate) then
    (max arrival s.time,
      ⟨min cap (s.tokens + (max arrival s.time - s.time) * rate) - 1,
        max arrival s.time⟩)
  else
    (max arrival s.time
        + (1 - min cap (s.tokens + (max arrival s.time - s.time) * rate))
          / rate,
      ⟨0, max arrival s.time
        + (1 - min cap (s.tokens + (max arrival s.time - s.time) * rate))
          / rate⟩)

/-- Modelled from the spec: admitting a sequence of acquire() calls through
one shared bucket, returning every admission time and the final bucket
state. -/
def admitAll (rate cap : ℚ) : BucketState → List ℚ → List ℚ × BucketState
  | s, [] => ([], s)
  | s, arrival :: rest =>
    let p := acquire rate cap s arrival
    let q := admitAll rate cap p.2 rest
    (p.1 :: q.1, q.2)

/-- Modelled from the spec: a full RateLimiter run — capacity equals the
rate and the bucket starts full at time zero (spec section 4.1). -/
def rateLimiterRun (rate : ℚ) (arrivals : List ℚ) : List ℚ × BucketState :=
  admitAll rate rate ⟨rate, 0⟩ arrivals

/-- The conservation invariant of the token bucket: tokens are nonnegative
and, after k admissions, at most cap - k plus what the elapsed time could
refill. -/
def BucketInv (rate cap : ℚ) (k : ℕ) (s : BucketState) : Prop :=
  0 ≤ s.tokens ∧ s.tokens ≤ cap - (k : ℚ) + rate * s.time

theorem acquire_time_eq (rate cap : ℚ) (s : BucketState) (arrival : ℚ) :
    (acquire rate cap s arrival).1 = (acquire rate cap s arrival).2.time := by
  unfold acquire
  split <;> rfl

theorem acquire_inv (rate cap : ℚ) (hr : 0 < rate) (s : BucketState)
    (arrival : ℚ) (k : ℕ) (h : BucketInv rate cap k s) :
    BucketInv rate cap (k + 1) (acquire rate cap s arrival).2 ∧
      s.time ≤ (acquire rate cap s arrival).2.time := by
  obtain ⟨hpos, hbound⟩ := h
  have ht : s.time ≤ max arrival s.time := le_max_right _ _
  have havail : min cap (s.tokens + (max arrival s.time - s.time) * rate)
      ≤ cap - (k : ℚ) + rate * max arrival s.time := by
    calc min cap (s.tokens + (max arrival s.time - s.time) * rate)
        ≤ s.tokens + (max arrival s.time - s.time) * rate :=
          min_le_right _ _
      _ ≤ (cap - (k : ℚ) + rate * s.time)
            + (max arrival s.time - s.time) * rate := by linarith
      _ = cap - (k : ℚ) + rate * max arrival s.time := by ring
  unfold acquire BucketInv
  split
  · rename_i hge
    constructor
    · constructor
      · simpa using hge
      · push_cast
        linarith
    · exact ht
  · rename_i hlt
    push_neg at hlt
    constructor
    · constructor
      · simp
      · push_cast
        have hrate : rate * ((1 - min cap (s.tokens
            + (max arrival s.time - s.time) * rate)) / rate)
            = 1 - min cap (s.tokens + (max arrival s.time - s.time) * rate) :=
          mul_div_cancel₀ _ (ne_of_gt hr)
        calc (0 : ℚ) ≤ cap - (k : ℚ) + rate * max arrival s.time
            - min cap (s.tokens + (max arrival s.time - s.time) * rate) := by
              linarith
        _ = cap - ((k : ℚ) + 1) + rate * (max arrival s.time
            + (1 - min cap (s.tokens
              + (max arrival s.time - s.time) * rate)) / rate) := by
              rw [mul_add, hrate]
              ring
    · have hwait : 0 ≤ (1 - min cap (s.tokens
          + (max arrival s.time - s.time) * rate)) / rate :=
        div_nonneg (by linarith) (le_of_lt hr)
      linarith

theorem admitAll_inv (rate cap : ℚ) (hr : 0 < rate) :
    ∀ (arrivals : List ℚ) (s : BucketState) (k : ℕ),
      BucketInv rate cap k s →
      BucketInv rate cap (k + arrivals.length)
        (admitAll rate cap s arrivals).2 := by
  intro arrivals
  induction arrivals with
  | nil =>
    intro s k h
    simpa [admitAll] using h
  | cons a rest ih =>
    intro s k h
    obtain ⟨h1, -⟩ := acquire_inv rate cap hr s a k h
    have := ih (acquire rate cap s a).2 (k + 1) h1
    simpa [admitAll, Nat.add_assoc, Nat.add_comm 1 rest.length] using this

theorem admitAll_length (rate cap : ℚ) :
    ∀ (arrivals : List ℚ) (s : BucketState),
      (admitAll rate cap s arrivals).1.length = arrivals.length := by
  intro arrivals
  induction arrivals with
  | nil =>
    intro s
    simp [admitAll]
  | cons a rest ih =>
    intro s
    simp [admitAll, ih]

theorem admitAll_getLast (rate cap : ℚ) :
    ∀ (arrivals : List ℚ) (a : ℚ) (s : BucketState),
      (admitAll rate cap s (a :: arrivals)).1.getLast?
        = some (admitAll rate cap s (a :: arrivals)).2.time := by
  intro arrivals
  induction arrivals with
  | nil =>
    intro a s
    simp [admitAll, acquire_time_eq]
  | cons b rest ih =>
    intro a s
    simp only [admitAll]
    rw [List.getLast?_cons_cons]
    exact ih b (acquire rate cap s a).2

/-- C6: the rate limiter admits every one of the N requests issued within
the first second (the admission list has length N, none rejected or
dropped); the last request is granted exactly at the final bucket time; and
when N exceeds the rate (= capacity), that completion time is at least
(N - capacity) / rate. -/
theorem claim_C6_rate_limiter (rate : ℚ) (arrivals : List ℚ)
    (hr : 0 < rate) (harr : ∀ a ∈ arrivals, 0 ≤ a ∧ a ≤ 1) :
    (rateLimiterRun rate arrivals).1.length = arrivals.length ∧
    (∀ a0 rest, arrivals = a0 :: rest →
      (rateLimiterRun rate arrivals).1.getLast?
        = some (rateLimiterRun rate arrivals).2.time) ∧
    ((rate : ℚ) < (arrivals.length : ℚ) →
      ((arrivals.length : ℚ) - rate) / rate
        ≤ (rateLimiterRun rate arrivals).2.time) := by
  refine ⟨admitAll_length rate rate arrivals _, ?_, ?_⟩
  · intro a0 rest hcons
    subst hcons
    exact admitAll_getLast rate rate rest a0 ⟨rate, 0⟩
  · intro hN
    have hinv0 : BucketInv rate rate 0 ⟨rate, 0⟩ := by
      constructor
      · exact le_of_lt hr
      · simp
    have hfin := admitAll_inv rate rate hr arrivals ⟨rate, 0⟩ 0 hinv0
    obtain ⟨hpos, hbound⟩ := hfin
    rw [div_le_iff₀ hr]
    have : (0 : ℚ) ≤ rate - (arrivals.length : ℚ)
        + rate * (rateLimiterRun rate arrivals).2.time := by
      simpa [rateLimiterRun] using le_trans hpos hbound
    linarith [mul_comm rate (rateLimiterRun rate arrivals).2.time]

/-- Witness for C6: three requests at time zero through a limiter of rate 2
are all admitted and the run takes at least (3 - 2) / 2 seconds. -/
theorem claim_C6_witness :
    (rateLimiterRun 2 [0, 0, 0]).1.length = ([0, 0, 0] : List ℚ).length ∧
    (∀ a0 rest, ([0, 0, 0] : List ℚ) = a0 :: rest →
      (rateLimiterRun 2 [0, 0, 0]).1.getLast?
        = some (rateLimiterRun 2 [0, 0, 0]).2.time) ∧
    ((2 : ℚ) < (([0, 0, 0] : List ℚ).length : ℚ) →
      ((([0, 0, 0] : List ℚ).length : ℚ) - 2) / 2
        ≤ (rateLimiterRun 2 [0, 0, 0]).2.time) :=
  claim_C6_rate_limiter 2 [0, 0, 0] (by norm_num)
    (by
      intro a ha
      simp at ha
      subst ha
      norm_num)

/-! ## EarnOrchestrator workflows -/

/-- Modelled from the spec: the order types the demo passes to the
workflows (market or limit). -/
inductive OrderType where
  | market : OrderType
  | limit : OrderType
deriving DecidableEq, Repr

/-- Modelled from the spec: the externally visible operations a workflow
performs, recorded as an execution trace: gateway calls (redeem, place
order, transfer, subscribe/deposit), settlement waits, and the local
normalization step (spec sections 4.4 and 6). -/
inductive GwEvent where
  | redeemSavings (asset : String) (amount : ℚ) : GwEvent
  | waitSettlement (opId : String) : GwEvent
  | normalize (symbol : String) (rawQty : ℚ) : GwEvent
  | placeOrder (symbol : String) (side : String) (qty : ℚ) : GwEvent
  | waitOrder (orderId : String) : GwEvent
  | transfer (fromAcct : String) (toAcct : String) (asset : String)
      (amount : ℚ) : GwEvent
  | subscribeSavings (asset : String) (amount : ℚ) : GwEvent
deriving DecidableEq, Repr

/-- Modelled from the spec: how an asynchronous operation settles —
successfully with a settled amount, by timing out, or by failing
(spec sections 4.3 and 6). -/
inductive SettleOutcome where
  | settled (amount : ℚ) : SettleOutcome
  | timedOut : SettleOutcome
  | opFailed (reason : String) : SettleOutcome
deriving DecidableEq, Repr

/-- Modelled from the spec: the terminal fill of an order as reported by
getOrderStatus (spec section 6). -/
structure OrderFill where
  filledQty : ℚ
  avgPrice : ℚ
deriving DecidableEq, Repr

/-- Modelled from the spec: the ExchangeGateway behavior a workflow run
observes — the instrument, a reference market price used for
normalization, and the responses to redeem, settlement wait, order
placement, order wait, transfer and savings subscription (deposit), plus
the futures balance available after closing a position (spec section 6).
The bitget_earn_trading library that would implement the orchestrator
against the real gateway is not in src/. -/
structure Gateway where
  instrument : Instrument
  marketPrice : ℚ
  redeemResp : Except String String
  settleResp : String → SettleOutcome
  placeResp : Except String String
  orderWait : String → Option OrderFill
  transferResp : Except String String
  subscribeResp : Except String String
  futuresAvailable : ℚ

/-- Modelled from the spec: workflow-level failures, tagged with the step
that failed (spec sections 4.4 and 7). -/
inductive WfError where
  | stepFailed (step : ℕ) (reason : String) : WfError
  | settlementTimeout (step : ℕ) : WfError
  | validationFailed (step : ℕ) : WfError
deriving DecidableEq, Repr

/-- Modelled from the spec: the result dictionary of buyFromSavings,
holding the redemption operation id and the buy order id
(spec section 4.4). -/
structure BuyFromSavingsResult where
  redeem_order_id : String
  buy_order_id : String
deriving DecidableEq, Repr

/-- Modelled from the spec: the result of sellToSavings — the sell order id,
the deposit order id when a deposit was made, and the no-deposit reason
otherwise (spec section 4.4). -/
structure SellToSavingsResult where
  sell_order_id : String
  deposit_order_id : Option String
  no_deposit_reason : Option String
deriving DecidableEq, Repr

/-- Modelled from the spec: the result of exitPositionToSavings
(spec section 4.4). -/
structure ExitPositionResult where
  close_order_id : String
  deposit_order_id : Option String
  no_deposit_reason : Option String
deriving DecidableEq, Repr

/-- Modelled from the spec: the buyFromSavings workflow (spec section 4.4).
Step 1 redeems the quote asset from savings; Step 2 waits for the
redemption to settle; Step 3 normalizes the settled amount and submits the
buy order; Step 4, for market orders, waits for the order to reach a
terminal fill state (limit orders return immediately with the order id).
Returns the result or the failing step, together with the trace of
operations executed. -/
def buy_from_savings (g : Gateway) (symbol quoteCoin : String) (amount : ℚ)
    (orderType : OrderType) :
    Except WfError BuyFromSavingsResult × List GwEvent :=
  match g.redeemResp with
  | Except.error e =>
      (Except.error (WfError.stepFailed 1 e),
        [GwEvent.redeemSavings quoteCoin amount])
  | Except.ok redeemId =>
    match g.settleResp redeemId with
    | SettleOutcome.timedOut =>
        (Except.error (WfError.settlementTimeout 2),
          [GwEvent.redeemSavings quoteCoin amount,
            GwEvent.waitSettlement redeemId])
    | SettleOutcome.opFailed r =>
        (Except.error (WfError.stepFailed 2 r),
          [GwEvent.redeemSavings quoteCoin amount,
            GwEvent.waitSettlement redeemId])
    | SettleOutcome.settled settledAmt =>
      match normalizeQuantity g.instrument settledAmt g.marketPrice with
      | Except.error _ =>
          (Except.error (WfError.validationFailed 3),
            [GwEvent.redeemSavings quoteCoin amount,
              GwEvent.waitSettlement redeemId,
              GwEvent.normalize symbol settledAmt])
      | Except.ok qty =>
        match g.placeResp with
        | Except.error e =>
            (Except.error (WfError.stepFailed 3 e),
              [GwEvent.redeemSavings quoteCoin amount,
                GwEvent.waitSettlement redeemId,
                GwEvent.normalize symbol settledAmt,
                GwEvent.placeOrder symbol "buy" qty])
        | Except.ok orderId =>
          match orderType with
          | OrderType.limit =>
              (Except.ok ⟨redeemId, orderId⟩,
                [GwEvent.redeemSavings quoteCoin amount,
                  GwEvent.waitSettlement redeemId,
                  GwEvent.normalize symbol settledAmt,
                  GwEvent.placeOrder symbol "buy" qty])
          | OrderType.market =>
            match g.orderWait orderId with
            | none =>
                (Except.error (WfError.settlementTimeout 4),
                  [GwEvent.redeemSavings quoteCoin amount,
                    GwEvent.waitSettlement redeemId,
                    GwEvent.normalize symbol settledAmt,
                    GwEvent.placeOrder symbol "buy" qty,
                    GwEvent.waitOrder orderId])
            | some _ =>
                (Except.ok ⟨redeemId, orderId⟩,
                  [GwEvent.redeemSavings quoteCoin amount,
                    GwEvent.waitSettlement redeemId,
                    GwEvent.normalize symbol settledAmt,
                    GwEvent.placeOrder symbol "buy" qty,
                    GwEvent.waitOrder orderId])

/-- Modelled from the spec: the sellToSavings workflow (spec section 4.4).
Step 1 normalizes and submits the sell order; Step 2 waits for the fill;
Step 3 deposits the proceeds to savings when the filled quantity is
positive, otherwise skips the deposit and reports the reason
"order unfilled". -/
def sell_to_savings (g : Gateway) (symbol : String) (amountBase : ℚ)
    (quoteCoin : String) :
    Except WfError SellToSavingsResult × List GwEvent :=
  match normalizeQuantity g.instrument amountBase g.marketPrice with
  | Except.error _ =>
      (Except.error (WfError.validationFailed 1),
        [GwEvent.normalize symbol amountBase])
  | Except.ok qty =>
    match g.placeResp with
    | Except.error e =>
        (Except.error (WfError.stepFailed 1 e),
          [GwEvent.normalize symbol amountBase,
            GwEvent.placeOrder symbol "sell" qty])
    | Except.ok sellId =>
      match g.orderWait sellId with
      | none =>
          (Except.error (WfError.settlementTimeout 2),
            [GwEvent.normalize symbol amountBase,
              GwEvent.placeOrder symbol "sell" qty,
              GwEvent.waitOrder sellId])
      | some fill =>
        if 0 < fill.filledQty then
          match g.subscribeResp with
          | Except.error e =>
              (Except.error (WfError.stepFailed 3 e),
                [GwEvent.normalize symbol amountBase,
                  GwEvent.placeOrder symbol "sell" qty,
                  GwEvent.waitOrder sellId,
                  GwEvent.subscribeSavings quoteCoin
                    (fill.filledQty * fill.avgPrice)])
          | Except.ok depId =>
              (Except.ok ⟨sellId, some depId, none⟩,
                [GwEvent.normalize symbol amountBase,
                  GwEvent.placeOrder symbol "sell" qty,
                  GwEvent.waitOrder sellId,
                  GwEvent.subscribeSavings quoteCoin
                    (fill.filledQty * fill.avgPrice)])
        else
          (Except.ok ⟨sellId, none, some "order unfilled"⟩,
            [GwEvent.normalize symbol amountBase,
              GwEvent.placeOrder symbol "sell" qty,
              GwEvent.waitOrder sellId])

/-- Modelled from the spec: the exitPositionToSavings workflow
(spec section 4.4).  Step 1 submits the closing order; Step 2 waits for the
fill; Step 3 transfers the remaining futures-wallet balance to spot; Step 4
waits for the transfer; Step 5 deposits to savings when the transferred
amount is positive, otherwise reports the reason "no available balance". -/
def exit_position_to_savings (g : Gateway) (symbol : String) (size : ℚ)
    (side marginCoin : String) :
    Except WfError ExitPositionResult × List GwEvent :=
  match g.placeResp with
  | Except.error e =>
      (Except.error (WfError.stepFailed 1 e),
        [GwEvent.placeOrder symbol ("close_" ++ side) size])
  | Except.ok closeId =>
    match g.orderWait closeId with
    | none =>
        (Except.error (WfError.settlementTimeout 2),
          [GwEvent.placeOrder symbol ("close_" ++ side) size,
            GwEvent.waitOrder closeId])
    | some _ =>
      match g.transferResp with
      | Except.error e =>
          (Except.error (WfError.stepFailed 3 e),
            [GwEvent.placeOrder symbol ("close_" ++ side) size,
              GwEvent.waitOrder closeId,
              GwEvent.transfer "futures" "spot" marginCoin
                g.futuresAvailable])
      | Except.ok transferId =>
        match g.settleResp transferId with
        | SettleOutcome.timedOut =>
            (Except.error (WfError.settlementTimeout 4),
              [GwEvent.placeOrder symbol ("close_" ++ side) size,
                GwEvent.waitOrder closeId,
                GwEvent.transfer "futures" "spot" marginCoin
                  g.futuresAvailable,
                GwEvent.waitSettlement transferId])
        | SettleOutcome.opFailed r =>
            (Except.error (WfError.stepFailed 4 r),
              [GwEvent.placeOrder symbol ("close_" ++ side) size,
                GwEvent.waitOrder closeId,
                GwEvent.transfer "futures" "spot" marginCoin
                  g.futuresAvailable,
                GwEvent.waitSettlement transferId])
        | SettleOutcome.settled transferredAmt =>
          if 0 < transferredAmt then
            match g.subscribeResp with
            | Except.error e =>
                (Except.error (WfError.stepFailed 5 e),
                  [GwEvent.placeOrder symbol ("close_" ++ side) size,
                    GwEvent.waitOrder closeId,
                    GwEvent.transfer "futures" "spot" marginCoin
                      g.futuresAvailable,
                    GwEvent.waitSettlement transferId,
                    GwEvent.subscribeSavings marginCoin transferredAmt])
            | Except.ok depId =>
                (Except.ok ⟨closeId, some depId, none⟩,
                  [GwEvent.placeOrder symbol ("close_" ++ side) size,
                    GwEvent.waitOrder closeId,
                    GwEvent.transfer "futures" "spot" marginCoin
                      g.futuresAvailable,
                    GwEvent.waitSettlement transferId,
                    GwEvent.subscribeSavings marginCoin transferredAmt])
          else
            (Except.ok ⟨closeId, none, some "no available balance"⟩,
              [GwEvent.placeOrder symbol ("close_" ++ side) size,
                GwEvent.waitOrder closeId,
                GwEvent.transfer "futures" "spot" marginCoin
                  g.futuresAvailable,
                GwEvent.waitSettlement transferId])

/-- Recognizes a savings-deposit (subscribe) call in a trace. -/
def GwEvent.isDeposit : GwEvent → Bool
  | GwEvent.subscribeSavings _ _ => true
  | _ => false

/-- C2: with a market order, when the redemption settles and the buy order
for the normalized quantity fills completely, buyFromSavings returns the
redemption order id and the buy order id with no error; and when the
redemption step fails, the trace contains only the redemption call — no
normalization, no order submission and no fill wait execute. -/
theorem claim_C2_buy_from_savings (g : Gateway) (symbol quoteCoin : String)
    (amount settledAmt qty : ℚ) (redeemId orderId : String)
    (fill : OrderFill) :
    (g.redeemResp = Except.ok redeemId →
      g.settleResp redeemId = SettleOutcome.settled settledAmt →
      normalizeQuantity g.instrument settledAmt g.marketPrice
          = Except.ok qty →
      g.placeResp = Except.ok orderId →
      g.orderWait orderId = some fill →
      fill.filledQty = qty →
      (buy_from_savings g symbol quoteCoin amount OrderType.market).1
        = Except.ok ⟨redeemId, orderId⟩) ∧
    (∀ e, g.redeemResp = Except.error e →
      (buy_from_savings g symbol quoteCoin amount OrderType.market).1
          = Except.error (WfError.stepFailed 1 e) ∧
      (buy_from_savings g symbol quoteCoin amount OrderType.market).2
          = [GwEvent.redeemSavings quoteCoin amount]) := by
  constructor
  · intro hred hset hnorm hplace hwait _
    simp [buy_from_savings, hred, hset, hnorm, hplace, hwait]
  · intro e hred
    constructor
    · simp [buy_from_savings, hred]
    · simp [buy_from_savings, hred]

/-- C3: when the sell order of sellToSavings fills zero quantity the result
carries no deposit order id, reports the reason "order unfilled", and the
trace contains no deposit (subscribe) call; and when the transfer of
exitPositionToSavings settles a zero amount the result carries no deposit
order id, reports the reason "no available balance", and the trace contains
no deposit call. -/
theorem claim_C3_no_deposit_on_zero (g : Gateway)
    (symbol quoteCoin side marginCoin : String)
    (amountBase size qty tAmt : ℚ)
    (sellId closeId transferId : String) (fill fillc : OrderFill) :
    (normalizeQuantity g.instrument amountBase g.marketPrice
          = Except.ok qty →
      g.placeResp = Except.ok sellId →
      g.orderWait sellId = some fill →
      fill.filledQty = 0 →
      (sell_to_savings g symbol amountBase quoteCoin).1
          = Except.ok ⟨sellId, none, some "order unfilled"⟩ ∧
      ∀ ev ∈ (sell_to_savings g symbol amountBase quoteCoin).2,
        ev.isDeposit = false) ∧
    (g.placeResp = Except.ok closeId →
      g.orderWait closeId = some fillc →
      g.transferResp = Except.ok transferId →
      g.settleResp transferId = SettleOutcome.settled tAmt →
      tAmt = 0 →
      (exit_position_to_savings g symbol size side marginCoin).1
          = Except.ok ⟨closeId, none, some "no available balance"⟩ ∧
      ∀ ev ∈ (exit_position_to_savings g symbol size side marginCoin).2,
        ev.isDeposit = false) := by
  constructor
  · intro hnorm hplace hwait hfq
    have hneg : ¬ 0 < fill.filledQty := by
      rw [hfq]
      exact lt_irrefl 0
    have hrun : sell_to_savings g symbol amountBase quoteCoin
        = (Except.ok ⟨sellId, none, some "order unfilled"⟩,
            [GwEvent.normalize symbol amountBase,
              GwEvent.placeOrder symbol "sell" qty,
              GwEvent.waitOrder sellId]) := by
      unfold sell_to_savings
      rw [hnorm]
      simp only []
      rw [hplace]
      simp only []
      rw [hwait]
      simp only []
      rw [if_neg hneg]
    refine ⟨by rw [hrun], ?_⟩
    intro ev hev
    rw [hrun] at hev
    simp only [List.mem_cons, List.not_mem_nil, or_false] at hev
    rcases hev with rfl | rfl | rfl <;> rfl
  · intro hplace hwait htrans hset htz
    have hneg : ¬ 0 < tAmt := by
      rw [htz]
      exact lt_irrefl 0
    have hrun : exit_position_to_savings g symbol size side marginCoin
        = (Except.ok ⟨closeId, none, some "no available balance"⟩,
            [GwEvent.placeOrder symbol ("close_" ++ side) size,
              GwEvent.waitOrder closeId,
              GwEvent.transfer "futures" "spot" marginCoin
                g.futuresAvailable,
              GwEvent.waitSettlement transferId]) := by
      unfold exit_position_to_savings
      rw [hplace]
      simp only []
      rw [hwait]
      simp only []
      rw [htrans]
      simp only []
      rw [hset]
      simp only []
      rw [if_neg hneg]
    refine ⟨by rw [hrun], ?_⟩
    intro ev hev
    rw [hrun] at hev
    simp only [List.mem_cons, List.not_mem_nil, or_false] at hev
    rcases hev with rfl | rfl | rfl | rfl <;> rfl

/-- A gateway on which every step of a buy-from-savings run succeeds: the
redemption settles 10 USDT and the market buy fills completely. -/
def demoGatewayFull : Gateway where
  instrument := btcInstrument
  marketPrice := 100
  redeemResp := Except.ok "redeem-1"
  settleResp := fun _ => SettleOutcome.settled 10
  placeResp := Except.ok "order-1"
  orderWait := fun _ => some ⟨10, 100⟩
  transferResp := Except.ok "transfer-1"
  subscribeResp := Except.ok "deposit-1"
  futuresAvailable := 0

/-- The same gateway with a failing savings redemption. -/
def demoGatewayFailingRedeem : Gateway :=
  { demoGatewayFull with redeemResp := Except.error "insufficient savings" }

/-- The same gateway with orders that fill zero quantity and transfers that
settle a zero amount. -/
def demoGatewayUnfilled : Gateway :=
  { demoGatewayFull with
      orderWait := fun _ => some ⟨0, 100⟩,
      settleResp := fun _ => SettleOutcome.settled 0 }

/-- Witness for C2: on the all-success gateway the market buy returns both
ids with no error; on the failing-redemption gateway the run fails at step
1 having executed only the redemption call. -/
theorem claim_C2_witness :
    (buy_from_savings demoGatewayFull "BTCUSDT" "USDT" 10
        OrderType.market).1
      = Except.ok ⟨"redeem-1", "order-1"⟩ ∧
    ((buy_from_savings demoGatewayFailingRedeem "BTCUSDT" "USDT" 10
        OrderType.market).1
      = Except.error (WfError.stepFailed 1 "insufficient savings") ∧
     (buy_from_savings demoGatewayFailingRedeem "BTCUSDT" "USDT" 10
        OrderType.market).2
      = [GwEvent.redeemSavings "USDT" 10]) :=
  ⟨(claim_C2_buy_from_savings demoGatewayFull "BTCUSDT" "USDT" 10 10 10
      "redeem-1" "order-1" ⟨10, 100⟩).1 rfl rfl
      (by norm_num [normalizeQuantity, normalizeToGrid, btcInstrument,
        demoGatewayFull])
      rfl rfl rfl,
   (claim_C2_buy_from_savings demoGatewayFailingRedeem "BTCUSDT" "USDT"
      10 0 0 "r" "o" ⟨0, 0⟩).2 "insufficient savings" rfl⟩

/-- Witness for C3: on the zero-fill gateway, selling 1/2 BTC deposits
nothing and reports "order unfilled", and exiting a position deposits
nothing and reports "no available balance"; neither trace contains a
deposit call. -/
theorem claim_C3_witness :
    ((sell_to_savings demoGatewayUnfilled "BTCUSDT" (1/2) "USDT").1
        = Except.ok ⟨"order-1", none, some "order unfilled"⟩ ∧
      ∀ ev ∈ (sell_to_savings demoGatewayUnfilled "BTCUSDT" (1/2)
          "USDT").2, ev.isDeposit = false) ∧
    ((exit_position_to_savings demoGatewayUnfilled "ADAUSDT" 34 "long"
          "USDT").1
        = Except.ok ⟨"order-1", none, some "no available balance"⟩ ∧
      ∀ ev ∈ (exit_position_to_savings demoGatewayUnfilled "ADAUSDT" 34
          "long" "USDT").2, ev.isDeposit = false) :=
  ⟨(claim_C3_no_deposit_on_zero demoGatewayUnfilled "BTCUSDT" "USDT"
      "long" "USDT" (1/2) 34 (1/2) 0 "order-1" "order-1" "transfer-1"
      ⟨0, 100⟩ ⟨0, 100⟩).1
      (by norm_num [normalizeQuantity, normalizeToGrid, btcInstrument,
        demoGatewayUnfilled, demoGatewayFull])
      rfl rfl rfl,
   (claim_C3_no_deposit_on_zero demoGatewayUnfilled "ADAUSDT" "USDT"
      "long" "USDT" (1/2) 34 (1/2) 0 "order-1" "order-1" "transfer-1"
      ⟨0, 100⟩ ⟨0, 100⟩).2 rfl rfl rfl rfl rfl⟩

/-! ## Notebook demo cells

The definitions below are embedded from the notebook source
src/bitget-earn-demo/bitget_earn_trading_demo.ipynb: the balance-display
cells (sections 3.1 and 4.1) and the try/except workflow cells
(sections 3.2 and 4.4). -/

/-- A Python value as it appears in the dictionaries the client returns:
None or a string. -/
inductive PyVal where
  | none : PyVal
  | str (s : String) : PyVal
deriving DecidableEq, Repr

/-- How a Python value renders inside an f-string. -/
def PyVal.display : PyVal → String
  | PyVal.none => "None"
  | PyVal.str s => s

/-- Python truthiness of a value: None and the empty string are falsy. -/
def PyVal.isTruthy : PyVal → Bool
  | PyVal.none => false
  | PyVal.str s => !(s == "")

/-- A Python dictionary embedded as an association list. -/
abbrev PyDict := List (String × PyVal)

/-- Python dict.get(key, default): the value at the key, or the default
when the key is absent.  Used by the balance-display cells. -/
def dictGet (d : PyDict) (k : String) (dflt : PyVal) : PyVal :=
  match d.find? (fun kv => kv.1 == k) with
  | some kv => kv.2
  | Option.none => dflt

/-- Python dict[key]: the value at the key, or a KeyError exception when
the key is absent.  Used on the workflow result dictionaries. -/
def dictIndex (d : PyDict) (k : String) : Except String PyVal :=
  match d.find? (fun kv => kv.1 == k) with
  | some kv => Except.ok kv.2
  | Option.none => Except.error ("KeyError: " ++ k)

/-- The try-block body of the buy-from-savings demo cell (notebook section
3.2): call the client, then index the result dictionary; any exception —
from the call itself or from the indexing — surfaces as the error case. -/
def buyCellBody (callResult : Except String PyDict) :
    Except String (List String) := do
  let result ← callResult
  let rid ← dictIndex result "redeem_order_id"
  let bid ← dictIndex result "buy_order_id"
  pure ["Buy order completed!",
    "Redemption Order ID: " ++ rid.display,
    "Buy Order ID: " ++ bid.display]

/-- The printed output of the buy-from-savings demo cell: the opening
print, then either the success prints or the except-handler print. -/
def buy_from_savings_cell (callResult : Except String PyDict) :
    List String :=
  "Buying 10 USDT worth of BTCUSDT from savings..." ::
    (match buyCellBody callResult with
    | Except.ok lines => lines
    | Except.error e => ["Buy from savings failed: " ++ e])

/-- The try-block body of the exit-position-to-savings demo cell (notebook
section 4.4): call the client, index the result dictionary, and branch on
the truthiness of deposit_order_id. -/
def exitCellBody (callResult : Except String PyDict) :
    Except String (List String) := do
  let result ← callResult
  let cid ← dictIndex result "close_order_id"
  let dep ← dictIndex result "deposit_order_id"
  pure ("Position closed and funds deposited to savings!" ::
    ("Close Order ID: " ++ cid.display) ::
    (if dep.isTruthy then
      ["Savings Deposit Order ID: " ++ dep.display]
    else
      ["No funds deposited to savings (no available balance)"]))

/-- The printed output of the exit-position-to-savings demo cell. -/
def exit_position_cell (callResult : Except String PyDict) : List String :=
  "Closing long position for ADAUSDT and depositing to savings..." ::
    (match exitCellBody callResult with
    | Except.ok lines => lines
    | Except.error e => ["Failed to close position: " ++ e])

/-- The balance lines of the spot balance-display cell (notebook section
3.1), which read the dictionaries with .get and default "0". -/
def spot_balance_display (usdt_balance btc_balance : PyDict) :
    List String :=
  ["USDT: " ++ (dictGet usdt_balance "available" (PyVal.str "0")).display
      ++ " (available)",
    "BTC: " ++ (dictGet btc_balance "available" (PyVal.str "0")).display
      ++ " (available)"]

/-- The balance lines of the futures balance-display cell (notebook
section 4.1). -/
def futures_balance_display (futures_balance : PyDict) : List String :=
  ["USDT Available: "
      ++ (dictGet futures_balance "available" (PyVal.str "0")).display,
    "USDT Locked: "
      ++ (dictGet futures_balance "locked" (PyVal.str "0")).display,
    "USDT Equity: "
      ++ (dictGet futures_balance "equity" (PyVal.str "0")).display]

/-- C9: in the buy-from-savings and exit-position demo cells, every
exception raised inside the try block — by the client call itself or by
indexing its result — is caught by the enclosing except handler and
rendered as a printed failure message, and a successful body prints its
success lines; in both cases the cell's output is a plain list of printed
lines, so no exception propagates out of the cell. -/
theorem claim_C9_demo_cells_catch (callResult : Except String PyDict) :
    (∀ e, callResult = Except.error e → buyCellBody callResult
        = Except.error e) ∧
    (∀ e, buyCellBody callResult = Except.error e →
      buy_from_savings_cell callResult
        = ["Buying 10 USDT worth of BTCUSDT from savings...",
            "Buy from savings failed: " ++ e]) ∧
    (∀ lines, buyCellBody callResult = Except.ok lines →
      buy_from_savings_cell callResult
        = "Buying 10 USDT worth of BTCUSDT from savings..." :: lines) ∧
    (∀ e, exitCellBody callResult = Except.error e →
      exit_position_cell callResult
        = ["Closing long position for ADAUSDT and depositing to savings...",
            "Failed to close position: " ++ e]) ∧
    (∀ lines, exitCellBody callResult = Except.ok lines →
      exit_position_cell callResult
        = "Closing long position for ADAUSDT and depositing to savings..."
            :: lines) := by
  refine ⟨?_, ?_, ?_, ?_, ?_⟩
  · intro e he
    subst he
    rfl
  · intro e he
    unfold buy_from_savings_cell
    rw [he]
  · intro lines hl
    unfold buy_from_savings_cell
    rw [hl]
  · intro e he
    unfold exit_position_cell
    rw [he]
  · intro lines hl
    unfold exit_position_cell
    rw [hl]

/-- Witness for C9 at two concrete call outcomes: a raised exception and a
result dictionary missing its documented keys (whose indexing raises). -/
theorem claim_C9_witness :
    buy_from_savings_cell (Except.error "Network error")
      = ["Buying 10 USDT worth of BTCUSDT from savings...",
          "Buy from savings failed: " ++ "Network error"] ∧
    exit_position_cell (Except.ok [("unexpected", PyVal.str "1")])
      = ["Closing long position for ADAUSDT and depositing to savings...",
          "Failed to close position: " ++ "KeyError: close_order_id"] :=
  ⟨(claim_C9_demo_cells_catch (Except.error "Network error")).2.1
      "Network error" rfl,
   (claim_C9_demo_cells_catch
      (Except.ok [("unexpected", PyVal.str "1")])).2.2.2.1
      "KeyError: close_order_id" rfl⟩

/-- C10: the balance-display cells read available/locked/equity with .get
and default "0", so a balance dictionary missing those keys renders "0" on
every line instead of raising; a workflow result dictionary, indexed
directly, raises KeyError on any missing key. -/
theorem claim_C10_balance_get_default (d : PyDict) :
    ((∀ k, k ∈ (["available", "locked", "equity"] : List String) →
        d.find? (fun kv => kv.1 == k) = Option.none) →
      futures_balance_display d
          = ["USDT Available: 0", "USDT Locked: 0", "USDT Equity: 0"] ∧
      spot_balance_display d d
          = ["USDT: 0 (available)", "BTC: 0 (available)"]) ∧
    (∀ k, d.find? (fun kv => kv.1 == k) = Option.none →
      dictIndex d k = Except.error ("KeyError: " ++ k)) := by
  constructor
  · intro hmiss
    have ha := hmiss "available" (by simp)
    have hl := hmiss "locked" (by simp)
    have he := hmiss "equity" (by simp)
    constructor
    · unfold futures_balance_display dictGet
      rw [ha, hl, he]
      rfl
    · unfold spot_balance_display dictGet
      rw [ha]
      rfl
  · intro k hk
    unfold dictIndex
    rw [hk]

/-- Witness for C10 at a concrete dictionary that lacks the balance keys. -/
theorem claim_C10_witness :
    (futures_balance_display [("other", PyVal.str "1")]
        = ["USDT Available: 0", "USDT Locked: 0", "USDT Equity: 0"] ∧
      spot_balance_display [("other", PyVal.str "1")]
          [("other", PyVal.str "1")]
        = ["USDT: 0 (available)", "BTC: 0 (available)"]) ∧
    dictIndex [("other", PyVal.str "1")] "equity"
        = Except.error ("KeyError: " ++ "equity") :=
  ⟨(claim_C10_balance_get_default [("other", PyVal.str "1")]).1
      (by
        intro k hk
        simp only [List.mem_cons, List.not_mem_nil, or_false] at hk
        rcases hk with rfl | rfl | rfl <;> rfl),
   (claim_C10_balance_get_default [("other", PyVal.str "1")]).2
      "equity" rfl⟩

end BitgetEarn
